import Mathlib

/-!
Verification of the PBR Studio validation and batch-analysis engine.

The repository ships a Rust core (pbr-core / pbr-cli) together with a
TypeScript UI (pbr-studio-ui).  The UI sources (`ValidationPanel`,
`AdvancedAnalysisPanel`, `useUndoRedo`) are embedded here directly from
the TypeScript; the Rust core itself is not part of the checked-in
sources, so the engine (validation, plugin parsing, duplicate
detection, cross-material analysis, tileability fixer) is modelled from
the specification, as noted on each definition.
-/

namespace PBR

/-- The closed set of texture slots (albedo, normal, roughness, metallic,
ambient-occlusion, height). -/
inductive TextureSlot where
  | albedo
  | normal
  | roughness
  | metallic
  | ao
  | height
deriving DecidableEq, Repr, Fintype

/-- The fixed declared order of slots, as listed in the documentation. -/
def slotOrder : List TextureSlot :=
  [.albedo, .normal, .roughness, .metallic, .ao, .height]

/-- A decoded texture: dimensions plus grayscale pixel rows.
(The engine's rules only consult the dimensions; the tileability fixer
also reads pixels.) -/
structure Texture where
  width : Nat
  height : Nat
  pixels : List (List ℚ)
deriving DecidableEq, Repr

/-- A material: a mapping from slot to optional texture, plus a name. -/
structure TextureSet where
  name : String
  slots : TextureSlot → Option Texture

/-- Number of present (non-null) slots of a material. -/
def TextureSet.textureCount (s : TextureSet) : Nat :=
  (slotOrder.filter (fun sl => (s.slots sl).isSome)).length

/-- Present textures of a material, in the fixed slot order. -/
def TextureSet.presentTextures (s : TextureSet) : List (TextureSlot × Texture) :=
  slotOrder.filterMap (fun sl => (s.slots sl).map (fun t => (sl, t)))

/-- Severity of a validation issue emitted by the engine. -/
inductive Severity where
  | critical
  | major
  | minor
deriving DecidableEq, Repr

/-- Modelled from the spec: fixed score-deduction weight per severity
(Critical 20, Major 10, Minor 5). -/
def severityWeight : Severity → Nat
  | .critical => 20
  | .major => 10
  | .minor => 5

/-- A validation issue: rule id, severity, message. -/
structure ValidationIssue where
  rule_id : String
  severity : Severity
  message : String
deriving DecidableEq, Repr

/-- Modelled from the spec: the aggregate score starts at 100, is reduced
by each issue's severity weight and floored at 0. -/
def scoreOfIssues (issues : List ValidationIssue) : Int :=
  max 0 (100 - (issues.map (fun i => (severityWeight i.severity : Int))).sum)

/-- Rule conditions: a closed tagged union (built-in kinds plus Script). -/
inductive RuleCondition where
  | requiredMaps (slots : List TextureSlot)
  | maxResolution (w h : Nat)
  | minResolution (w h : Nat)
  | powerOfTwo
  | maxTextureCount (n : Nat)
  | script (command : String) (args : List String)
deriving DecidableEq, Repr

/-- A rule definition as loaded from a plugin manifest or built in. -/
structure RuleDefinition where
  id : String
  description : String
  severity : Severity
  condition : RuleCondition
deriving DecidableEq, Repr

/-- Modelled from the spec: the observable outcome of running a Script
rule's child process (the process-spawning code lives in the absent Rust
core).  `exitFailure code` stands for termination with the non-zero exit
code `code`; `success` is exit code 0 with well-formed JSON on stdout;
`invalidOutput` is exit code 0 with malformed stdout; `timeout` is a
killed process, treated as a non-zero exit. -/
inductive ScriptOutcome where
  | success (issues : List ValidationIssue)
  | exitFailure (code : Nat)
  | invalidOutput
  | timeout

/-- The synthetic Critical issue produced when a script exits non-zero:
rule id `script_execution_failed`, message naming the rule id and code. -/
def scriptFailureIssue (ruleId : String) (code : Nat) : ValidationIssue :=
  { rule_id := "script_execution_failed"
    severity := .critical
    message := "script rule " ++ ruleId ++ " failed with exit code " ++ toString code }

/-- Modelled from the spec (§4.3): issues contributed by one Script rule,
as a function of the process outcome.  Failures become ordinary data
(synthetic issues), never a hard error. -/
def scriptIssues (ruleId : String) : ScriptOutcome → List ValidationIssue
  | .success issues => issues
  | .exitFailure code => [scriptFailureIssue ruleId code]
  | .invalidOutput =>
      [{ rule_id := "script_output_invalid"
         severity := .major
         message := "script rule " ++ ruleId ++ " produced malformed output" }]
  | .timeout =>
      [{ rule_id := "script_execution_failed"
         severity := .critical
         message := "script rule " ++ ruleId ++ " timed out and was killed" }]

/-- Boolean power-of-two test on dimensions. -/
def isPow2 (n : Nat) : Bool := n != 0 && 2 ^ Nat.log2 n == n

/-- Names of slots, for issue messages. -/
def slotName : TextureSlot → String
  | .albedo => "albedo"
  | .normal => "normal"
  | .roughness => "roughness"
  | .metallic => "metallic"
  | .ao => "ao"
  | .height => "height"

/-- Modelled from the spec (§4.1): evaluate one rule against a material.
`oracle` supplies the outcome of each Script rule's child process, keyed
by rule id, so that the evaluator stays a pure function. -/
def evalRule (s : TextureSet) (oracle : String → ScriptOutcome)
    (r : RuleDefinition) : List ValidationIssue :=
  match r.condition with
  | .requiredMaps slots =>
      let missing := slots.filter (fun sl => (s.slots sl).isNone)
      if missing.isEmpty then []
      else [{ rule_id := r.id, severity := r.severity
              message := "missing maps: " ++ String.intercalate ", " (missing.map slotName) }]
  | .maxResolution w h =>
      match s.presentTextures.find? (fun p => w < p.2.width || h < p.2.height) with
      | none => []
      | some p =>
          [{ rule_id := r.id, severity := r.severity
             message := slotName p.1 ++ " is " ++ toString p.2.width ++ "x" ++
               toString p.2.height ++ ", limit " ++ toString w ++ "x" ++ toString h }]
  | .minResolution w h =>
      match s.presentTextures.find? (fun p => p.2.width < w || p.2.height < h) with
      | none => []
      | some p =>
          [{ rule_id := r.id, severity := r.severity
             message := slotName p.1 ++ " is " ++ toString p.2.width ++ "x" ++
               toString p.2.height ++ ", minimum " ++ toString w ++ "x" ++ toString h }]
  | .powerOfTwo =>
      (s.presentTextures.filter
        (fun p => !(isPow2 p.2.width && isPow2 p.2.height))).map
        (fun p => { rule_id := r.id, severity := r.severity
                    message := slotName p.1 ++ " is not power-of-two" })
  | .maxTextureCount n =>
      if n < s.textureCount then
        [{ rule_id := r.id, severity := r.severity
           message := "texture count " ++ toString s.textureCount ++ " exceeds " ++ toString n }]
      else []
  | .script _ _ => scriptIssues r.id (oracle r.id)

/-- Result of validating one material. -/
structure ValidationResult where
  issues : List ValidationIssue
  score : Int
  passed : Bool
deriving DecidableEq, Repr

/-- The default pass threshold (`--min-score 60`). -/
def defaultMinScore : Int := 60

/-- Modelled from the spec (§4.1): run every rule in registry order,
collect the issues, compute the deduction score, and pass iff the score
reaches the caller-supplied threshold and there is no Critical issue. -/
def validate (s : TextureSet) (rules : List RuleDefinition)
    (oracle : String → ScriptOutcome) (minScore : Int) : ValidationResult :=
  let issues := (rules.map (evalRule s oracle)).flatten
  let score := scoreOfIssues issues
  { issues := issues
    score := score
    passed := decide (minScore ≤ score) &&
      issues.all (fun i => decide (i.severity ≠ Severity.critical)) }

/-! ## UI report and fallback score (from `ValidationPanel`, src/unnamed/part_008)

The TypeScript `Issue` interface uses string severities
`'critical' | 'major' | 'minor' | 'error' | 'warning' | 'info'`. -/

/-- An issue as received by the UI (`Issue` in the TypeScript). -/
structure UIIssue where
  rule_id : String
  severity : String
  message : String
deriving DecidableEq, Repr

/-- From `severityToClass` in the TypeScript source. -/
def severityToClass (severity : String) : String :=
  if severity = "critical" || severity = "error" then "severity-error"
  else if severity = "major" || severity = "warning" then "severity-warning"
  else "severity-info"

/-- The UI-side `MaterialReport` (fields the score logic consults;
the optional vram/ai sub-objects are omitted as `getScore` ignores them). -/
structure MaterialReport where
  issues : List UIIssue
  passed : Bool
  error_count : Nat
  warning_count : Nat
  score : Option Int
deriving DecidableEq, Repr

/-- From `getScore` in the TypeScript source: the report's own score when
present, else 100 minus 20 per counted error and 10 per counted warning,
floored at 0. -/
def getScore (report : MaterialReport) : Int :=
  match report.score with
  | some s => s
  | none =>
      let errorPenalty : Int := 20
      let warningPenalty : Int := 10
      let deduction :=
        (report.error_count : Int) * errorPenalty + (report.warning_count : Int) * warningPenalty
      max 0 (100 - deduction)

/-- Modelled from the spec: the deduction score over UI issues, weighting
the spec's three severities (Critical 20, Major 10, Minor 5).  The spec's
model covers only those three severity strings. -/
def specWeight (severity : String) : Int :=
  if severity = "critical" then 20
  else if severity = "major" then 10
  else if severity = "minor" then 5
  else 0

/-- Modelled from the spec: score starts at 100, each issue deducts its
severity weight, floored at 0. -/
def specScoreUI (issues : List UIIssue) : Int :=
  max 0 (100 - (issues.map (fun i => specWeight i.severity)).sum)

/-- Modelled from the spec: a report is well formed when `error_count`
counts its Critical issues, `warning_count` counts its Major issues, and
every issue carries one of the engine's three severities. -/
def wellFormedReport (r : MaterialReport) : Prop :=
  r.error_count = r.issues.countP (fun i => i.severity = "critical") ∧
  r.warning_count = r.issues.countP (fun i => i.severity = "major") ∧
  ∀ i ∈ r.issues, i.severity = "critical" ∨ i.severity = "major" ∨ i.severity = "minor"

instance (r : MaterialReport) : Decidable (wellFormedReport r) := by
  unfold wellFormedReport
  exact inferInstance

/-! ## Fingerprint index and duplicate detection (modelled from spec §4.4;
the UI's `runAnalysis` invokes the absent Rust core with
`duplicateThreshold: 0.99, similarThreshold: 0.8`). -/

/-- One texture entry handed to the batch duplicate analysis: its owning
material, slot, path and perceptual fingerprint (a fixed-length bit
vector). -/
structure TexEntry where
  material : String
  slot : TextureSlot
  path : String
  fp : List Bool
deriving DecidableEq, Repr

/-- Normalized Hamming distance converted to a similarity score in [0,1]
(modelled from spec §3). -/
def similarity (a b : List Bool) : ℚ :=
  1 - ((a.zip b).countP (fun p => p.1 ≠ p.2) : ℚ) / (a.length : ℚ)

/-- The default bucketing thresholds (also hard-coded in the UI call). -/
def defaultDuplicateThreshold : ℚ := 99 / 100
def defaultSimilarThreshold : ℚ := 8 / 10

/-- All unordered pairs of a list, each distinct positional pair once. -/
def allPairs : List α → List (α × α)
  | [] => []
  | x :: xs => xs.map (fun y => (x, y)) ++ allPairs xs

/-- A pair is excluded from comparison when both entries come from the
same slot of the same material (this also covers self-pairs). -/
def excludedPair (p : TexEntry × TexEntry) : Bool :=
  p.1.material = p.2.material && p.1.slot = p.2.slot

/-- Modelled from spec §4.4: the compared pairs (all unordered pairs
minus the excluded ones). -/
def candidatePairs (entries : List TexEntry) : List (TexEntry × TexEntry) :=
  (allPairs entries).filter (fun p => !excludedPair p)

/-- Modelled from spec §4.4: pairs with similarity at or above the
duplicate threshold. -/
def duplicatePairs (entries : List TexEntry) (dupT : ℚ) : List (TexEntry × TexEntry) :=
  (candidatePairs entries).filter (fun p => decide (dupT ≤ similarity p.1.fp p.2.fp))

/-- Modelled from spec §4.4: pairs with similarity in
[similar threshold, duplicate threshold). -/
def similarPairs (entries : List TexEntry) (dupT simT : ℚ) : List (TexEntry × TexEntry) :=
  (candidatePairs entries).filter
    (fun p => decide (simT ≤ similarity p.1.fp p.2.fp) &&
      decide (similarity p.1.fp p.2.fp < dupT))

/-! ## Cross-material analyzer (modelled from spec §4.5; the UI's
`MapCoverage` interface in `AdvancedAnalysisPanel.tsx` fixes the record
shape). -/

/-- Per-slot coverage record (`MapCoverage` interface in the UI). -/
structure MapCoverage where
  slot : TextureSlot
  present_count : Nat
  total_count : Nat
  coverage_percent : ℚ
  missing_in : List String
deriving DecidableEq, Repr

/-- Modelled from spec §4.5: coverage of one slot across a batch. -/
def mapCoverageFor (sets : List TextureSet) (slot : TextureSlot) : MapCoverage :=
  let present := sets.countP (fun s => (s.slots slot).isSome)
  { slot := slot
    present_count := present
    total_count := sets.length
    coverage_percent := (100 * present : ℚ) / (sets.length : ℚ)
    missing_in := (sets.filter (fun s => (s.slots slot).isNone)).map (fun s => s.name) }

/-- Modelled from spec §4.5: coverage for every slot, in slot order. -/
def mapCoverage (sets : List TextureSet) : List MapCoverage :=
  slotOrder.map (mapCoverageFor sets)

/-! ## Tileability fixer (modelled from spec §4.6). -/

/-- Error taxonomy entry relevant to the Fixer (spec §7). -/
inductive FixError where
  | invalidParameter (message : String)
deriving DecidableEq, Repr

/-- Linear interpolation. -/
def lerp (a b t : ℚ) : ℚ := a + (b - a) * t

/-- Cross-blend one row's wrapping bands of width `w` (modelled from spec
§4.6: pixels within `w` of a wrapping boundary are linearly blended with
the opposing edge; interior pixels are untouched). -/
def blendRow (w : Nat) (row : List ℚ) : List ℚ :=
  let len := row.length
  row.mapIdx (fun x v =>
    if x < w then
      lerp v (row.getD (len - 1 - x) 0) (((w - x : Int) : ℚ) / (2 * w))
    else if len - w ≤ x then
      lerp v (row.getD (len - 1 - x) 0) (((x - (len - w) + 1 : Int) : ℚ) / (2 * w))
    else v)

/-- Transpose helper for the vertical blend pass. -/
def columns (rows : List (List ℚ)) : List (List ℚ) :=
  (List.range ((rows.headD []).length)).map (fun c => rows.map (fun r => r.getD c 0))

/-- Modelled from spec §4.6: blend the left/right bands of every row,
then the top/bottom bands of every column. -/
def applyBlend (t : Texture) (w : Nat) : Texture :=
  let horizontal := t.pixels.map (blendRow w)
  { t with pixels := columns ((columns horizontal).map (blendRow w)) }

/-- Modelled from spec §4.6: `fix` rejects a blend width that is not
smaller than half the texture's smaller dimension with an
`InvalidParameter` error, and otherwise blends; the parameter is never
clamped. -/
def fix (t : Texture) (blendWidth : Nat) : Except FixError Texture :=
  if 2 * blendWidth < min t.width t.height then
    .ok (applyBlend t blendWidth)
  else
    .error (.invalidParameter
      ("blend_width " ++ toString blendWidth ++ " must be smaller than half of " ++
        toString (min t.width t.height)))

/-! ## Plugin manifests (modelled from spec §4.2/§6 and the manifest
examples in the plugin documentation).  A manifest is exactly one of two
serializations: a structured JSON object (`plugin.json`) or a TOML-like
key/value document with array-of-tables (`plugin.toml`).  Both must parse
to the same in-memory `Plugin` value. -/

/-- An export preset definition (spec §6 schema). -/
structure PresetDefinition where
  id : String
  presetName : String
  target_resolution : String
  include_lod : Bool
deriving DecidableEq, Repr

/-- A loaded plugin: name, version, rules, presets (spec §3). -/
structure Plugin where
  pluginName : String
  version : String
  rules : List RuleDefinition
  presets : List PresetDefinition
deriving DecidableEq, Repr

/-- Parse every element of a list, failing if any element fails. -/
def optionMapList (f : A → Option B) : List A → Option (List B)
  | [] => some []
  | x :: xs => (f x).bind (fun y => (optionMapList f xs).map (fun ys => y :: ys))

/-- Severity strings accepted in manifests (spec §6). -/
def parseSeverity (s : String) : Option Severity :=
  if s = "critical" then some .critical
  else if s = "major" then some .major
  else if s = "minor" then some .minor
  else none

/-- Slot names accepted in `required_maps` lists. -/
def parseSlot (s : String) : Option TextureSlot :=
  if s = "albedo" then some .albedo
  else if s = "normal" then some .normal
  else if s = "roughness" then some .roughness
  else if s = "metallic" then some .metallic
  else if s = "ao" then some .ao
  else if s = "height" then some .height
  else none

/-- JSON values, as far as the manifest schema needs them. -/
inductive JVal where
  | jstr (s : String)
  | jint (n : Int)
  | jbool (b : Bool)
  | jarr (xs : List JVal)
  | jobj (fields : List (String × JVal))
deriving Repr

/-- First-match field lookup in a JSON object. -/
def lookupJ : List (String × JVal) → String → Option JVal
  | [], _ => none
  | kv :: rest, key => if kv.1 = key then some kv.2 else lookupJ rest key

def asStr : Option JVal → Option String
  | some (.jstr s) => some s
  | _ => none

def asInt : Option JVal → Option Int
  | some (.jint n) => some n
  | _ => none

def asBool : Option JVal → Option Bool
  | some (.jbool b) => some b
  | _ => none

def getJStr : JVal → Option String
  | .jstr s => some s
  | _ => none

def asStrList : Option JVal → Option (List String)
  | some (.jarr xs) => optionMapList getJStr xs
  | _ => none

/-- TOML values, as far as the manifest format needs them: strings,
integers, booleans and string arrays. -/
inductive TomlValue where
  | tstr (s : String)
  | tint (n : Int)
  | tbool (b : Bool)
  | tstrArr (xs : List String)
deriving DecidableEq, Repr

/-- One `[[rules]]` table: its own key/values plus the
`[rules.condition]` sub-table. -/
structure TomlRule where
  entries : List (String × TomlValue)
  condition : List (String × TomlValue)
deriving Repr

/-- A TOML-like manifest document: top-level key/values, the `[[rules]]`
tables and the `[[presets]]` tables. -/
structure TomlDoc where
  top : List (String × TomlValue)
  rules : List TomlRule
  presets : List (List (String × TomlValue))
deriving Repr

/-- First-match key lookup in a TOML table. -/
def lookupT : List (String × TomlValue) → String → Option TomlValue
  | [], _ => none
  | kv :: rest, key => if kv.1 = key then some kv.2 else lookupT rest key

def asTStr : Option TomlValue → Option String
  | some (.tstr s) => some s
  | _ => none

def asTInt : Option TomlValue → Option Int
  | some (.tint n) => some n
  | _ => none

def asTBool : Option TomlValue → Option Bool
  | some (.tbool b) => some b
  | _ => none

def asTStrList : Option TomlValue → Option (List String)
  | some (.tstrArr xs) => some xs
  | _ => none

/-- Modelled from spec §4.2/§6: parse and validate one rule condition
from the key/values of a JSON `condition` object.  Unknown `type`,
non-positive dimensions, a non-positive count and an empty script
command are load-time errors (`none`). -/
def parseConditionFieldsJson (fields : List (String × JVal)) : Option RuleCondition :=
  match asStr (lookupJ fields "type") with
  | some "required_maps" =>
      (asStrList (lookupJ fields "maps")).bind (fun ms =>
        (optionMapList parseSlot ms).map (fun slots => RuleCondition.requiredMaps slots))
  | some "max_resolution" =>
      (asInt (lookupJ fields "max_width")).bind (fun w =>
        (asInt (lookupJ fields "max_height")).bind (fun h =>
          if 0 < w && 0 < h then some (RuleCondition.maxResolution w.toNat h.toNat)
          else none))
  | some "min_resolution" =>
      (asInt (lookupJ fields "min_width")).bind (fun w =>
        (asInt (lookupJ fields "min_height")).bind (fun h =>
          if 0 < w && 0 < h then some (RuleCondition.minResolution w.toNat h.toNat)
          else none))
  | some "power_of_two" => some RuleCondition.powerOfTwo
  | some "max_texture_count" =>
      (asInt (lookupJ fields "max")).bind (fun n =>
        if 0 < n then some (RuleCondition.maxTextureCount n.toNat) else none)
  | some "script" =>
      (asStr (lookupJ fields "command")).bind (fun cmd =>
        if cmd = "" then none
        else some (RuleCondition.script cmd ((asStrList (lookupJ fields "args")).getD [])))
  | _ => none

/-- Parse a JSON condition value (must be an object). -/
def parseConditionJson : Option JVal → Option RuleCondition
  | some (.jobj fields) => parseConditionFieldsJson fields
  | _ => none

/-- Parse one rule from a JSON value (must be an object with id,
description, severity and condition). -/
def parseRuleJson : JVal → Option RuleDefinition
  | .jobj fields =>
      (asStr (lookupJ fields "id")).bind (fun i =>
        (asStr (lookupJ fields "description")).bind (fun d =>
          ((asStr (lookupJ fields "severity")).bind parseSeverity).bind (fun sev =>
            (parseConditionJson (lookupJ fields "condition")).map (fun cond =>
              { id := i, description := d, severity := sev, condition := cond }))))
  | _ => none

/-- Parse one preset from a JSON value; `include_lod` is optional and
defaults to false. -/
def parsePresetJson : JVal → Option PresetDefinition
  | .jobj fields =>
      (asStr (lookupJ fields "id")).bind (fun i =>
        (asStr (lookupJ fields "name")).bind (fun n =>
          (asStr (lookupJ fields "target_resolution")).map (fun tr =>
            { id := i, presetName := n, target_resolution := tr
              include_lod := (asBool (lookupJ fields "include_lod")).getD false })))
  | _ => none

/-- Parse the `rules` array; an absent field means no rules. -/
def parseRulesJson (v : Option JVal) : Option (List RuleDefinition) :=
  match v with
  | none => some []
  | some (.jarr xs) => optionMapList parseRuleJson xs
  | some _ => none

/-- Parse the `presets` array; an absent field means no presets. -/
def parsePresetsJson (v : Option JVal) : Option (List PresetDefinition) :=
  match v with
  | none => some []
  | some (.jarr xs) => optionMapList parsePresetJson xs
  | some _ => none

/-- Modelled from spec §4.2/§6: parse a structured-object (`plugin.json`)
manifest into a `Plugin`. -/
def parsePluginJson : JVal → Option Plugin
  | .jobj fields =>
      (asStr (lookupJ fields "name")).bind (fun n =>
        (asStr (lookupJ fields "version")).bind (fun v =>
          (parseRulesJson (lookupJ fields "rules")).bind (fun rs =>
            (parsePresetsJson (lookupJ fields "presets")).map (fun ps =>
              { pluginName := n, version := v, rules := rs, presets := ps }))))
  | _ => none

/-- Modelled from spec §4.2/§6: parse one rule condition from the
key/values of a `[rules.condition]` table, with the same load-time
validation as the JSON form. -/
def parseConditionToml (entries : List (String × TomlValue)) : Option RuleCondition :=
  match asTStr (lookupT entries "type") with
  | some "required_maps" =>
      (asTStrList (lookupT entries "maps")).bind (fun ms =>
        (optionMapList parseSlot ms).map (fun slots => RuleCondition.requiredMaps slots))
  | some "max_resolution" =>
      (asTInt (lookupT entries "max_width")).bind (fun w =>
        (asTInt (lookupT entries "max_height")).bind (fun h =>
          if 0 < w && 0 < h then some (RuleCondition.maxResolution w.toNat h.toNat)
          else none))
  | some "min_resolution" =>
      (asTInt (lookupT entries "min_width")).bind (fun w =>
        (asTInt (lookupT entries "min_height")).bind (fun h =>
          if 0 < w && 0 < h then some (RuleCondition.minResolution w.toNat h.toNat)
          else none))
  | some "power_of_two" => some RuleCondition.powerOfTwo
  | some "max_texture_count" =>
      (asTInt (lookupT entries "max")).bind (fun n =>
        if 0 < n then some (RuleCondition.maxTextureCount n.toNat) else none)
  | some "script" =>
      (asTStr (lookupT entries "command")).bind (fun cmd =>
        if cmd = "" then none
        else some (RuleCondition.script cmd ((asTStrList (lookupT entries "args")).getD [])))
  | _ => none

/-- Parse one `[[rules]]` table into a rule definition. -/
def parseRuleToml (t : TomlRule) : Option RuleDefinition :=
  (asTStr (lookupT t.entries "id")).bind (fun i =>
    (asTStr (lookupT t.entries "description")).bind (fun d =>
      ((asTStr (lookupT t.entries "severity")).bind parseSeverity).bind (fun sev =>
        (parseConditionToml t.condition).map (fun cond =>
          { id := i, description := d, severity := sev, condition := cond }))))

/-- Parse one `[[presets]]` table into a preset definition. -/
def parsePresetToml (entries : List (String × TomlValue)) : Option PresetDefinition :=
  (asTStr (lookupT entries "id")).bind (fun i =>
    (asTStr (lookupT entries "name")).bind (fun n =>
      (asTStr (lookupT entries "target_resolution")).map (fun tr =>
        { id := i, presetName := n, target_resolution := tr
          include_lod := (asTBool (lookupT entries "include_lod")).getD false })))

/-- Modelled from spec §4.2/§6: parse a TOML-like (`plugin.toml`)
manifest into a `Plugin`. -/
def parsePluginToml (d : TomlDoc) : Option Plugin :=
  (asTStr (lookupT d.top "name")).bind (fun n =>
    (asTStr (lookupT d.top "version")).bind (fun v =>
      (optionMapList parseRuleToml d.rules).bind (fun rs =>
        (optionMapList parsePresetToml d.presets).map (fun ps =>
          { pluginName := n, version := v, rules := rs, presets := ps }))))

/-- The structured-object rendering of a TOML value. -/
def jvalOfToml : TomlValue → JVal
  | .tstr s => .jstr s
  | .tint n => .jint n
  | .tbool b => .jbool b
  | .tstrArr xs => .jarr (xs.map JVal.jstr)

/-- The structured-object rendering of a TOML table. -/
def jfieldsOfToml (entries : List (String × TomlValue)) : List (String × JVal) :=
  entries.map (fun kv => (kv.1, jvalOfToml kv.2))

/-- The structured-object rendering of one `[[rules]]` table (the
condition object is listed first so lookups find it). -/
def jsonOfRule (t : TomlRule) : JVal :=
  .jobj (("condition", .jobj (jfieldsOfToml t.condition)) :: jfieldsOfToml t.entries)

/-- The structured-object rendering of one `[[presets]]` table. -/
def jsonOfPreset (entries : List (String × TomlValue)) : JVal :=
  .jobj (jfieldsOfToml entries)

/-- The structured-object serialization of the same rule set a TOML-like
manifest expresses: the canonical JSON counterpart of a `TomlDoc`. -/
def jsonOfToml (d : TomlDoc) : JVal :=
  .jobj (("rules", .jarr (d.rules.map jsonOfRule)) ::
    ("presets", .jarr (d.presets.map jsonOfPreset)) :: jfieldsOfToml d.top)

/-! ## Determinism harness (spec §4.1): the engine must not read the
clock or any random seed.  The engine is modelled as a pure function of
the material, the rules and the script outcomes, so we expose an
explicit ambient environment and show the result ignores it. -/

/-- An ambient environment a non-deterministic implementation could read. -/
structure EngineEnv where
  wallClock : Nat
  randomSeed : Nat
deriving DecidableEq, Repr

/-- Running `validate` in an ambient environment: the engine derives its
output only from the material, rule set and script outcomes. -/
def validateInEnv (_env : EngineEnv) (s : TextureSet) (rules : List RuleDefinition)
    (oracle : String → ScriptOutcome) (minScore : Int) : ValidationResult :=
  validate s rules oracle minScore

end PBR

/-! ## Undo/redo hook (from `src/pbr-studio-ui/src/hooks/useUndoRedo.ts`) -/

namespace UndoRedo

/-- The hook's `HistoryState<T>`. -/
structure HistoryState (T : Type) where
  past : List T
  present : T
  future : List T
deriving DecidableEq, Repr

/-- JavaScript `Array.prototype.slice` with one (possibly negative)
argument.  A negative start counts from the end; note that in JS
`-(1 - 1)` is `-0`, which `slice` treats as `0` (keep everything). -/
def jsSlice (l : List T) (start : Int) : List T :=
  if start < 0 then l.drop ((l.length + start).toNat) else l.drop start.toNat

/-- The hook's initial state. -/
def initialHistory (initial : T) : HistoryState T :=
  { past := [], present := initial, future := [] }

/-- `set`: push the present onto the (truncated) past, clear the future.
The updater form is modelled by applying `f` to the present (a plain
value is the constant updater). -/
def setH (maxHistory : Nat) (f : T → T) (s : HistoryState T) : HistoryState T :=
  { past := jsSlice s.past (-((maxHistory : Int) - 1)) ++ [s.present]
    present := f s.present
    future := [] }

/-- `setWithoutHistory`: update the present only. -/
def setWithoutHistory (f : T → T) (s : HistoryState T) : HistoryState T :=
  { s with present := f s.present }

/-- `undo`: move the last past entry to present, push present on future. -/
def undo (s : HistoryState T) : HistoryState T :=
  match s.past.getLast? with
  | none => s
  | some previous =>
      { past := s.past.dropLast
        present := previous
        future := s.present :: s.future }

/-- `redo`: move the first future entry to present, push present on past. -/
def redo (s : HistoryState T) : HistoryState T :=
  match s.future with
  | [] => s
  | next :: rest =>
      { past := s.past ++ [s.present]
        present := next
        future := rest }

/-- `reset`: fresh history around the given value. -/
def reset (v : T) (_s : HistoryState T) : HistoryState T :=
  { past := [], present := v, future := [] }

/-- One user-visible operation on the hook's state. -/
inductive HistoryOp (T : Type) where
  | hset (f : T → T)
  | hsetQuiet (f : T → T)
  | hundo
  | hredo
  | hreset (v : T)

/-- Apply one operation. -/
def applyOp (maxHistory : Nat) : HistoryOp T → HistoryState T → HistoryState T
  | .hset f => setH maxHistory f
  | .hsetQuiet f => setWithoutHistory f
  | .hundo => undo
  | .hredo => redo
  | .hreset v => reset v

/-- Run a sequence of operations from a starting state. -/
def runOps (maxHistory : Nat) (ops : List (HistoryOp T)) (s : HistoryState T) :
    HistoryState T :=
  ops.foldl (fun st op => applyOp maxHistory op st) s

/-- Total stored history length. -/
def histSize (s : HistoryState T) : Nat := s.past.length + s.future.length

end UndoRedo


namespace PBR

/-! ## Concrete fixtures used by counterexamples and witnesses. -/

/-- A material with no textures. -/
def sEmpty : TextureSet := { name := "Empty", slots := fun _ => none }

/-- A 2x2 all-gray texture payload. -/
def gray2 : Texture := { width := 2, height := 2, pixels := [[1/2, 1/2], [1/2, 1/2]] }

/-- A material holding only an albedo texture. -/
def matA : TextureSet :=
  { name := "A", slots := fun sl => if sl = .albedo then some gray2 else none }

/-- A material holding no albedo texture. -/
def matB : TextureSet :=
  { name := "B", slots := fun sl => if sl = .normal then some gray2 else none }

/-- The two-material batch used by the coverage witness. -/
def setsW : List TextureSet := [matA, matB]

/-- A script rule whose process will be observed to exit with code 2. -/
def scriptRuleW : RuleDefinition :=
  { id := "studio_check", description := "external studio checker"
    severity := .major, condition := .script "/usr/bin/studio-check" [] }

/-- A script-outcome oracle reporting exit code 2 for every rule. -/
def oracleExit2 : String → ScriptOutcome := fun _ => .exitFailure 2

/-- A 4x4 texture for the tileability witness. -/
def tex4 : Texture :=
  { width := 4, height := 4
    pixels := [[0, 0, 0, 0], [0, 1, 1, 0], [0, 1, 1, 0], [0, 0, 0, 0]] }

/-- A UI report carrying one Minor issue and no cached score. -/
def minorOnlyReport : MaterialReport :=
  { issues := [{ rule_id := "power_of_two", severity := "minor", message := "not power-of-two" }]
    passed := true, error_count := 0, warning_count := 0, score := none }

/-- A UI report carrying one Major issue and no cached score. -/
def majorReport : MaterialReport :=
  { issues := [{ rule_id := "required_maps", severity := "major", message := "missing normal" }]
    passed := true, error_count := 0, warning_count := 1, score := none }

/-- Two texture entries from different materials with identical fingerprints. -/
def texEntryA : TexEntry :=
  { material := "A", slot := .albedo, path := "A/albedo.png", fp := [true, false, true, false] }

def texEntryB : TexEntry :=
  { material := "B", slot := .albedo, path := "B/albedo.png", fp := [true, false, true, false] }

/-- The entry list used by the duplicate-bucketing witness. -/
def entriesW : List TexEntry := [texEntryA, texEntryB]

end PBR

namespace PBR

/-! ## Claim theorems. -/

/-- C2: for every TextureSet, rule set, script-outcome oracle and
caller-supplied minimum threshold (default 60), `validate` returns
`passed = true` if and only if the computed score is at least the
threshold and the issue list contains zero Critical issues. -/
theorem validate_passed_iff (s : TextureSet) (rules : List RuleDefinition)
    (oracle : String → ScriptOutcome) (minScore : Int) :
    (validate s rules oracle minScore).passed = true ↔
      (minScore ≤ (validate s rules oracle minScore).score ∧
        (validate s rules oracle minScore).issues.countP
          (fun i => decide (i.severity = Severity.critical)) = 0) := by
  simp only [validate, Bool.and_eq_true, decide_eq_true_eq, List.all_eq_true,
    List.countP_eq_zero]

/-- C3: a Script rule whose child process exits with a non-zero code
produces exactly one synthetic Critical issue with rule id
`script_execution_failed` whose message names the rule id and the exit
code, and no other issue from that rule; validation still returns a
result (the failure is data, not a hard error). -/
theorem script_failure_single_issue (s : TextureSet) (oracle : String → ScriptOutcome)
    (r : RuleDefinition) (cmd : String) (args : List String) (code : Nat) (minScore : Int)
    (hcond : r.condition = .script cmd args)
    (hout : oracle r.id = .exitFailure code) (_hcode : code ≠ 0) :
    evalRule s oracle r = [scriptFailureIssue r.id code] ∧
    (scriptFailureIssue r.id code).severity = .critical ∧
    (scriptFailureIssue r.id code).rule_id = "script_execution_failed" ∧
    (scriptFailureIssue r.id code).message =
      "script rule " ++ r.id ++ " failed with exit code " ++ toString code ∧
    (validate s [r] oracle minScore).issues = [scriptFailureIssue r.id code] := by
  have h1 : evalRule s oracle r = [scriptFailureIssue r.id code] := by
    simp [evalRule, hcond, scriptIssues, hout]
  refine ⟨h1, rfl, rfl, rfl, ?_⟩
  simp [validate, h1]

/-- C3 witness: a script rule observed to exit with code 2 yields the
single synthetic Critical issue. -/
theorem script_failure_single_issue_witness :
    evalRule sEmpty oracleExit2 scriptRuleW = [scriptFailureIssue "studio_check" 2] ∧
    (scriptFailureIssue "studio_check" 2).severity = .critical ∧
    (scriptFailureIssue "studio_check" 2).rule_id = "script_execution_failed" ∧
    (scriptFailureIssue "studio_check" 2).message =
      "script rule " ++ "studio_check" ++ " failed with exit code " ++ toString 2 ∧
    (validate sEmpty [scriptRuleW] oracleExit2 defaultMinScore).issues =
      [scriptFailureIssue "studio_check" 2] :=
  script_failure_single_issue sEmpty oracleExit2 scriptRuleW "/usr/bin/studio-check" [] 2
    defaultMinScore rfl rfl (by decide)

/-- C7: `fix` fails with an InvalidParameter error (and produces no
output texture) exactly when the blend width is not smaller than half
of the texture's smaller dimension, and on success the blend width is
used as given (never clamped). -/
theorem fix_invalid_blend_width (t : Texture) (w : Nat) :
    ((∃ msg, fix t w = .error (.invalidParameter msg)) ↔
      ¬ (2 * w < min t.width t.height)) ∧
    (∀ t2, fix t w = .ok t2 → 2 * w < min t.width t.height ∧ t2 = applyBlend t w) := by
  unfold fix
  by_cases h : 2 * w < min t.width t.height
  · simp [h]
  · simp [h]

/-- C7 witness: blend width 2 on a 4x4 texture (2·2 is not below 4/2·2)
is rejected with InvalidParameter. -/
theorem fix_invalid_blend_width_witness :
    ∃ msg, fix tex4 2 = .error (.invalidParameter msg) :=
  (fix_invalid_blend_width tex4 2).1.mpr (by decide)

/-- C8: running `validate` in two different ambient environments (wall
clock, random seed) produces identical output: the result depends only
on the material, the rule set and the script outcomes. -/
theorem validate_env_independent (env1 env2 : EngineEnv) (s : TextureSet)
    (rules : List RuleDefinition) (oracle : String → ScriptOutcome) (minScore : Int) :
    validateInEnv env1 s rules oracle minScore = validateInEnv env2 s rules oracle minScore :=
  rfl

end PBR

namespace UndoRedo

/-- Helper: one hook operation preserves the history-size bound when the
configured maximum is at least 2. -/
theorem histSize_applyOp_le {T : Type} (m : Nat) (hm : 2 ≤ m)
    (op : HistoryOp T) (s : HistoryState T) (hs : histSize s ≤ m) :
    histSize (applyOp m op s) ≤ m := by
  cases op with
  | hset f =>
      have hneg : (-((m : Int) - 1) < 0) := by omega
      simp only [applyOp, setH, histSize, jsSlice, if_pos hneg, List.length_append,
        List.length_drop, List.length_nil, List.length_cons]
      omega
  | hsetQuiet f => simpa [applyOp, setWithoutHistory, histSize] using hs
  | hundo =>
      simp only [applyOp]
      unfold undo
      split
      · simpa [histSize] using hs
      · rename_i previous hlast
        have hne : s.past ≠ [] := by
          intro hnil
          rw [hnil] at hlast
          simp at hlast
        have hpos : 0 < s.past.length := List.length_pos.mpr hne
        simp only [histSize, List.length_dropLast, List.length_cons] at *
        omega
  | hredo =>
      simp only [applyOp]
      unfold redo
      split
      · simpa [histSize] using hs
      · rename_i next rest hfut
        simp only [histSize] at hs ⊢
        rw [hfut] at hs
        simp only [List.length_append, List.length_cons, List.length_nil] at *
        omega
  | hreset v => simp [applyOp, reset, histSize]

/-- Helper: the history-size bound is preserved along any operation
sequence when the configured maximum is at least 2. -/
theorem histSize_runOps_le {T : Type} (m : Nat) (hm : 2 ≤ m)
    (ops : List (HistoryOp T)) (s : HistoryState T) (hs : histSize s ≤ m) :
    histSize (runOps m ops s) ≤ m := by
  induction ops generalizing s with
  | nil => simpa [runOps] using hs
  | cons op ops ih =>
      have hstep := histSize_applyOp_le m hm op s hs
      simpa [runOps] using ih (applyOp m op s) hstep

/-- C9 counterexample: with `maxHistory = 1` the claimed invariant
`past.length + future.length ≤ maxHistory` fails after two `set`
operations, because JavaScript `slice(-(1 - 1))` is `slice(0)` and does
not truncate. -/
theorem undo_history_bound_counterexample :
    ¬ (histSize (runOps 1
        [HistoryOp.hset (fun _ => 1), HistoryOp.hset (fun _ => 2)]
        (initialHistory 0)) ≤ 1) := by
  decide

/-- C9 (amended): for every `maxHistory ≥ 2` (in particular the default
50 and every UI-selectable size), every sequence of set,
setWithoutHistory, undo, redo and reset operations starting from the
initial state keeps `past.length + future.length ≤ maxHistory`, so the
undo stack never exceeds `maxHistory` entries. -/
theorem undo_history_bounded {T : Type} (maxHistory : Nat) (hm : 2 ≤ maxHistory)
    (initial : T) (ops : List (HistoryOp T)) :
    histSize (runOps maxHistory ops (initialHistory initial)) ≤ maxHistory ∧
    (runOps maxHistory ops (initialHistory initial)).past.length ≤ maxHistory := by
  have h0 : histSize (initialHistory initial) ≤ maxHistory := by
    simp [histSize, initialHistory]
  have h := histSize_runOps_le maxHistory hm ops (initialHistory initial) h0
  exact ⟨h, le_trans (Nat.le_add_right _ _) h⟩

/-- C9 witness: the bound holds at the default size 50 for a concrete
operation sequence. -/
theorem undo_history_bounded_witness :
    (2 ≤ 50) ∧
    histSize (runOps 50
      [HistoryOp.hset (fun n => n + 1), HistoryOp.hundo, HistoryOp.hredo]
      (initialHistory 0)) ≤ 50 ∧
    (runOps 50
      [HistoryOp.hset (fun n => n + 1), HistoryOp.hundo, HistoryOp.hredo]
      (initialHistory 0)).past.length ≤ 50 := by
  have h := undo_history_bounded 50 (by decide) 0
    [HistoryOp.hset (fun n => n + 1), HistoryOp.hundo, HistoryOp.hredo]
  exact ⟨by decide, h.1, h.2⟩

/-- C10: on any history state, undo followed by redo is the identity
when the past is non-empty, and redo followed by undo is the identity
when the future is non-empty. -/
theorem undo_redo_inverse {T : Type} (s : HistoryState T) :
    (s.past ≠ [] → redo (undo s) = s) ∧
    (s.future ≠ [] → undo (redo s) = s) := by
  constructor
  · intro h
    rcases List.eq_nil_or_concat s.past with hnil | ⟨p, x, hp⟩
    · exact absurd hnil h
    · obtain ⟨past, present, future⟩ := s
      simp only at hp
      subst hp
      simp [undo, redo, List.getLast?_concat, List.dropLast_concat]
  · intro h
    obtain ⟨past, present, future⟩ := s
    cases future with
    | nil => simp at h
    | cons next rest =>
        simp [redo, undo, List.getLast?_concat, List.dropLast_concat]

/-- C10 witness: both identities at a concrete history state. -/
theorem undo_redo_inverse_witness :
    redo (undo ⟨[1], 2, [3]⟩) = (⟨[1], 2, [3]⟩ : HistoryState Nat) ∧
    undo (redo ⟨[1], 2, [3]⟩) = (⟨[1], 2, [3]⟩ : HistoryState Nat) :=
  ⟨(undo_redo_inverse ⟨[1], 2, [3]⟩).1 (by decide),
   (undo_redo_inverse ⟨[1], 2, [3]⟩).2 (by decide)⟩

end UndoRedo

namespace PBR

/-- Every severity weight in the spec model is non-negative. -/
theorem specWeight_nonneg (s : String) : 0 ≤ specWeight s := by
  unfold specWeight
  split_ifs <;> norm_num

/-- The total deduction is non-negative. -/
theorem specWeight_sum_nonneg (issues : List UIIssue) :
    0 ≤ (issues.map (fun i => specWeight i.severity)).sum := by
  apply List.sum_nonneg
  intro x hx
  obtain ⟨i, _, rfl⟩ := List.mem_map.mp hx
  exact specWeight_nonneg _

/-- The spec score never exceeds 100. -/
theorem specScoreUI_le_100 (issues : List UIIssue) : specScoreUI issues ≤ 100 := by
  have h := specWeight_sum_nonneg issues
  unfold specScoreUI
  exact max_le (by norm_num) (by omega)

/-- Adding issues never increases the spec score. -/
theorem specScoreUI_append_le (issues extra : List UIIssue) :
    specScoreUI (issues ++ extra) ≤ specScoreUI issues := by
  have hx := specWeight_sum_nonneg extra
  unfold specScoreUI
  rw [List.map_append, List.sum_append]
  exact max_le_max le_rfl (by omega)

/-- On issue lists that use only the engine's three severities, the total
deduction is 20 per Critical, 10 per Major and 5 per Minor issue. -/
theorem specWeight_sum_counts (issues : List UIIssue)
    (hall : ∀ i ∈ issues,
      i.severity = "critical" ∨ i.severity = "major" ∨ i.severity = "minor") :
    (issues.map (fun i => specWeight i.severity)).sum =
      20 * (issues.countP (fun i => decide (i.severity = "critical")) : Int) +
      10 * (issues.countP (fun i => decide (i.severity = "major")) : Int) +
      5 * (issues.countP (fun i => decide (i.severity = "minor")) : Int) := by
  induction issues with
  | nil => simp
  | cons i is ih =>
      have hi := hall i (List.mem_cons_self i is)
      have ihr := ih (fun j hj => hall j (List.mem_cons_of_mem i hj))
      rcases hi with h | h | h
      · have hw : specWeight "critical" = 20 := by decide
        simp [List.countP_cons, h, hw, ihr]; ring
      · have hw : specWeight "major" = 10 := by decide
        simp [List.countP_cons, h, hw, ihr]; ring
      · have hw : specWeight "minor" = 5 := by decide
        simp [List.countP_cons, h, hw, ihr]; ring

/-- C1 counterexample: a well-formed report with one Minor issue and no
cached score gets UI fallback score 100, while the spec's deduction
model gives 95 — `getScore` does not equal the deduction model. -/
theorem getScore_minor_counterexample :
    wellFormedReport minorOnlyReport ∧
    getScore minorOnlyReport = 100 ∧
    specScoreUI minorOnlyReport.issues = 95 ∧
    getScore minorOnlyReport ≠ specScoreUI minorOnlyReport.issues :=
  ⟨by decide, by decide, by decide, by decide⟩

/-- C1 (amended): the deduction model starts at 100, deducts each
issue's fixed severity weight, is floored at 0 and always lies in
[0,100], and is monotonically non-increasing as issues are added; the
UI fallback `getScore` agrees with the deduction model on well-formed
score-less reports exactly when they contain no Minor issues (it deducts
20 per counted error and 10 per counted warning, but nothing for Minor
issues). -/
theorem score_model_and_getScore (issues extra : List UIIssue) (r : MaterialReport) :
    0 ≤ specScoreUI issues ∧ specScoreUI issues ≤ 100 ∧
    specScoreUI (issues ++ extra) ≤ specScoreUI issues ∧
    (wellFormedReport r → r.score = none →
      r.issues.countP (fun i => decide (i.severity = "minor")) = 0 →
      getScore r = specScoreUI r.issues) := by
  refine ⟨le_max_left 0 _, specScoreUI_le_100 issues, specScoreUI_append_le issues extra, ?_⟩
  rintro ⟨hE, hW, hall⟩ hscore hminor
  unfold getScore specScoreUI
  rw [hscore, specWeight_sum_counts r.issues hall, hE, hW, hminor]
  push_cast
  ring_nf

/-- C1 witness: on a well-formed report with one Major issue and no
cached score, the fallback equals the deduction model (both 90). -/
theorem score_model_and_getScore_witness :
    getScore majorReport = specScoreUI majorReport.issues :=
  (score_model_and_getScore [] [] majorReport).2.2.2 (by decide) rfl (by decide)

end PBR

namespace PBR

/-- Counting the materials missing a slot complements counting those
holding it. -/
theorem countP_isNone_complement (sets : List TextureSet) (slot : TextureSlot) :
    sets.countP (fun s => (s.slots slot).isNone) =
      sets.length - sets.countP (fun s => (s.slots slot).isSome) := by
  induction sets with
  | nil => simp
  | cons s rest ih =>
      have hle : rest.countP (fun s => (s.slots slot).isSome) ≤ rest.length :=
        List.countP_le_length _
      cases hopt : s.slots slot <;>
        simp [List.countP_cons, hopt, ih] <;>
        omega

/-- The present count never exceeds the batch size. -/
theorem countP_isSome_le (sets : List TextureSet) (slot : TextureSlot) :
    sets.countP (fun s => (s.slots slot).isSome) ≤ sets.length :=
  List.countP_le_length _

/-- C6: for a batch of N materials in which a slot is present in exactly
k of them, the reported coverage record has `present_count = k`,
`total_count = N`, `coverage_percent = 100*k/N`, and `missing_in` lists
exactly the names of the N−k materials lacking the slot. -/
theorem coverage_exact (sets : List TextureSet) (slot : TextureSlot) (k : Nat)
    (_hN : 0 < sets.length)
    (hk : sets.countP (fun s => (s.slots slot).isSome) = k) :
    (mapCoverageFor sets slot).present_count = k ∧
    (mapCoverageFor sets slot).total_count = sets.length ∧
    (mapCoverageFor sets slot).coverage_percent = (100 * k : ℚ) / (sets.length : ℚ) ∧
    (mapCoverageFor sets slot).missing_in =
      (sets.filter (fun s => (s.slots slot).isNone)).map (fun s => s.name) ∧
    (mapCoverageFor sets slot).missing_in.length = sets.length - k := by
  refine ⟨by simp [mapCoverageFor, hk], rfl, by simp [mapCoverageFor, hk], rfl, ?_⟩
  have hlen : (mapCoverageFor sets slot).missing_in.length =
      sets.countP (fun s => (s.slots slot).isNone) := by
    simp [mapCoverageFor, List.countP_eq_length_filter]
  rw [hlen, countP_isNone_complement, hk]

/-- C6 witness: in a batch of two materials where only the first has an
albedo map, albedo coverage is 50% and `missing_in` is exactly the other
material. -/
theorem coverage_exact_witness :
    (mapCoverageFor setsW TextureSlot.albedo).coverage_percent = 50 ∧
    (mapCoverageFor setsW TextureSlot.albedo).missing_in = ["B"] := by
  have h := coverage_exact setsW TextureSlot.albedo 1 (by decide) (by decide)
  refine ⟨?_, ?_⟩
  · rw [h.2.2.1]
    norm_num [setsW]
  · rw [h.2.2.2.1]
    decide

/-- C4: an unordered pair of compared textures lands in DuplicatePairs
exactly when its similarity reaches the duplicate threshold, in
SimilarPairs exactly when its similarity lies in
[similar threshold, duplicate threshold), and in neither when below the
similar threshold; pairs from the same slot of the same material (hence
self-pairs) are excluded. -/
theorem duplicate_bucketing (entries : List TexEntry) (dupT simT : ℚ)
    (p : TexEntry × TexEntry) :
    (p ∈ duplicatePairs entries dupT ↔
      p ∈ allPairs entries ∧ excludedPair p = false ∧
        dupT ≤ similarity p.1.fp p.2.fp) ∧
    (p ∈ similarPairs entries dupT simT ↔
      p ∈ allPairs entries ∧ excludedPair p = false ∧
        simT ≤ similarity p.1.fp p.2.fp ∧ similarity p.1.fp p.2.fp < dupT) ∧
    (excludedPair p = true →
      p ∉ duplicatePairs entries dupT ∧ p ∉ similarPairs entries dupT simT) ∧
    (similarity p.1.fp p.2.fp < simT → simT ≤ dupT →
      p ∉ duplicatePairs entries dupT ∧ p ∉ similarPairs entries dupT simT) ∧
    (∀ a : TexEntry, excludedPair (a, a) = true) := by
  have hdup : p ∈ duplicatePairs entries dupT ↔
      p ∈ allPairs entries ∧ excludedPair p = false ∧
        dupT ≤ similarity p.1.fp p.2.fp := by
    simp only [duplicatePairs, candidatePairs, List.mem_filter, Bool.not_eq_true',
      decide_eq_true_eq, and_assoc]
  have hsim : p ∈ similarPairs entries dupT simT ↔
      p ∈ allPairs entries ∧ excludedPair p = false ∧
        simT ≤ similarity p.1.fp p.2.fp ∧ similarity p.1.fp p.2.fp < dupT := by
    simp only [similarPairs, candidatePairs, List.mem_filter, Bool.not_eq_true',
      Bool.and_eq_true, decide_eq_true_eq, and_assoc]
  refine ⟨hdup, hsim, ?_, ?_, ?_⟩
  · intro hex
    constructor
    · intro hmem
      rcases hdup.mp hmem with ⟨-, hne, -⟩
      rw [hex] at hne
      exact Bool.noConfusion hne
    · intro hmem
      rcases hsim.mp hmem with ⟨-, hne, -⟩
      rw [hex] at hne
      exact Bool.noConfusion hne
  · intro hlt hle
    constructor
    · intro hmem
      rcases hdup.mp hmem with ⟨-, -, hge⟩
      exact absurd hge (not_le.mpr (lt_of_lt_of_le hlt hle))
    · intro hmem
      rcases hsim.mp hmem with ⟨-, -, hge, -⟩
      exact absurd hge (not_le.mpr hlt)
  · intro a
    simp [excludedPair]

end PBR

namespace PBR

/-- C4 witness: two byte-identical fingerprints from different materials
have similarity 1 and land in DuplicatePairs at the default thresholds. -/
theorem duplicate_bucketing_witness :
    (texEntryA, texEntryB) ∈ duplicatePairs entriesW defaultDuplicateThreshold :=
  (duplicate_bucketing entriesW defaultDuplicateThreshold defaultSimilarThreshold
    (texEntryA, texEntryB)).1.mpr ⟨by decide, by decide, by
      have hsim : similarity texEntryA.fp texEntryB.fp = 1 := by
        norm_num [similarity, texEntryA, texEntryB, List.zip_cons_cons, List.countP_cons]
      show defaultDuplicateThreshold ≤ similarity texEntryA.fp texEntryB.fp
      rw [hsim, defaultDuplicateThreshold]
      norm_num⟩

end PBR

namespace PBR

/-- Looking a key up in the JSON rendering of a TOML table finds the
rendering of what the TOML lookup finds. -/
theorem lookupJ_jfields (es : List (String × TomlValue)) (k : String) :
    lookupJ (jfieldsOfToml es) k = (lookupT es k).map jvalOfToml := by
  induction es with
  | nil => rfl
  | cons kv rest ih =>
      simp only [jfieldsOfToml, List.map_cons] at ih ⊢
      by_cases h : kv.1 = k
      · simp [lookupJ, lookupT, h]
      · simp [lookupJ, lookupT, h, ih]

/-- A cons cell with a different key is transparent to lookup. -/
theorem lookupJ_cons_ne (k key : String) (v : JVal) (fs : List (String × JVal))
    (h : k ≠ key) : lookupJ ((k, v) :: fs) key = lookupJ fs key := by
  simp [lookupJ, h]

/-- String extraction commutes with the TOML-to-JSON rendering. -/
theorem asStr_map (o : Option TomlValue) : asStr (o.map jvalOfToml) = asTStr o := by
  cases o with
  | none => rfl
  | some v => cases v <;> rfl

/-- Integer extraction commutes with the TOML-to-JSON rendering. -/
theorem asInt_map (o : Option TomlValue) : asInt (o.map jvalOfToml) = asTInt o := by
  cases o with
  | none => rfl
  | some v => cases v <;> rfl

/-- Boolean extraction commutes with the TOML-to-JSON rendering. -/
theorem asBool_map (o : Option TomlValue) : asBool (o.map jvalOfToml) = asTBool o := by
  cases o with
  | none => rfl
  | some v => cases v <;> rfl

/-- Re-extracting the strings of a rendered string array succeeds. -/
theorem optionMapList_getJStr (xs : List String) :
    optionMapList getJStr (xs.map JVal.jstr) = some xs := by
  induction xs with
  | nil => rfl
  | cons x xs ih => simp [optionMapList, getJStr, ih]

/-- String-list extraction commutes with the TOML-to-JSON rendering. -/
theorem asStrList_map (o : Option TomlValue) :
    asStrList (o.map jvalOfToml) = asTStrList o := by
  cases o with
  | none => rfl
  | some v =>
      cases v <;> simp [asStrList, asTStrList, jvalOfToml, optionMapList_getJStr]

/-- Parsing a list after mapping a renderer is parsing the composition. -/
theorem optionMapList_map {A B C : Type} (f : B → Option C) (g : A → B) (l : List A) :
    optionMapList f (l.map g) = optionMapList (fun a => f (g a)) l := by
  induction l with
  | nil => rfl
  | cons x xs ih => simp [optionMapList, ih]

/-- `optionMapList` only depends on the pointwise behaviour of the parser. -/
theorem optionMapList_congr {A B : Type} (f g : A → Option B) (l : List A)
    (h : ∀ a, f a = g a) : optionMapList f l = optionMapList g l := by
  induction l with
  | nil => rfl
  | cons x xs ih => simp [optionMapList, h, ih]

/-- A rule condition parses to the same value from either serialization. -/
theorem parseCondition_equiv (es : List (String × TomlValue)) :
    parseConditionFieldsJson (jfieldsOfToml es) = parseConditionToml es := by
  unfold parseConditionFieldsJson parseConditionToml
  simp only [lookupJ_jfields, asStr_map, asInt_map, asStrList_map]

/-- A rule definition parses to the same value from either serialization. -/
theorem parseRule_equiv (t : TomlRule) :
    parseRuleJson (jsonOfRule t) = parseRuleToml t := by
  have hid : lookupJ (("condition", JVal.jobj (jfieldsOfToml t.condition)) ::
      jfieldsOfToml t.entries) "id" = (lookupT t.entries "id").map jvalOfToml := by
    rw [lookupJ_cons_ne _ _ _ _ (by decide), lookupJ_jfields]
  have hdesc : lookupJ (("condition", JVal.jobj (jfieldsOfToml t.condition)) ::
      jfieldsOfToml t.entries) "description" =
      (lookupT t.entries "description").map jvalOfToml := by
    rw [lookupJ_cons_ne _ _ _ _ (by decide), lookupJ_jfields]
  have hsev : lookupJ (("condition", JVal.jobj (jfieldsOfToml t.condition)) ::
      jfieldsOfToml t.entries) "severity" =
      (lookupT t.entries "severity").map jvalOfToml := by
    rw [lookupJ_cons_ne _ _ _ _ (by decide), lookupJ_jfields]
  have hcond : lookupJ (("condition", JVal.jobj (jfieldsOfToml t.condition)) ::
      jfieldsOfToml t.entries) "condition" =
      some (JVal.jobj (jfieldsOfToml t.condition)) := by
    simp [lookupJ]
  show parseRuleJson (JVal.jobj (("condition", JVal.jobj (jfieldsOfToml t.condition)) ::
    jfieldsOfToml t.entries)) = parseRuleToml t
  simp only [parseRuleJson, parseRuleToml, hid, hdesc, hsev, hcond, asStr_map,
    parseConditionJson, parseCondition_equiv]

/-- A preset definition parses to the same value from either
serialization. -/
theorem parsePreset_equiv (es : List (String × TomlValue)) :
    parsePresetJson (jsonOfPreset es) = parsePresetToml es := by
  show parsePresetJson (JVal.jobj (jfieldsOfToml es)) = parsePresetToml es
  simp only [parsePresetJson, parsePresetToml, lookupJ_jfields, asStr_map, asBool_map]

/-- C5: parsing the same plugin rule set expressed in either supported
manifest serialization (structured-object JSON or TOML-like key/value
with array-of-tables) yields identical in-memory Plugin values. -/
theorem manifest_equivalence (d : TomlDoc) :
    parsePluginJson (jsonOfToml d) = parsePluginToml d := by
  have hname : lookupJ (("rules", JVal.jarr (d.rules.map jsonOfRule)) ::
      ("presets", JVal.jarr (d.presets.map jsonOfPreset)) :: jfieldsOfToml d.top)
      "name" = (lookupT d.top "name").map jvalOfToml := by
    rw [lookupJ_cons_ne _ _ _ _ (by decide), lookupJ_cons_ne _ _ _ _ (by decide),
      lookupJ_jfields]
  have hversion : lookupJ (("rules", JVal.jarr (d.rules.map jsonOfRule)) ::
      ("presets", JVal.jarr (d.presets.map jsonOfPreset)) :: jfieldsOfToml d.top)
      "version" = (lookupT d.top "version").map jvalOfToml := by
    rw [lookupJ_cons_ne _ _ _ _ (by decide), lookupJ_cons_ne _ _ _ _ (by decide),
      lookupJ_jfields]
  have hrules : lookupJ (("rules", JVal.jarr (d.rules.map jsonOfRule)) ::
      ("presets", JVal.jarr (d.presets.map jsonOfPreset)) :: jfieldsOfToml d.top)
      "rules" = some (JVal.jarr (d.rules.map jsonOfRule)) := by
    simp [lookupJ]
  have hpresets : lookupJ (("rules", JVal.jarr (d.rules.map jsonOfRule)) ::
      ("presets", JVal.jarr (d.presets.map jsonOfPreset)) :: jfieldsOfToml d.top)
      "presets" = some (JVal.jarr (d.presets.map jsonOfPreset)) := by
    simp [lookupJ]
  show parsePluginJson (JVal.jobj (("rules", JVal.jarr (d.rules.map jsonOfRule)) ::
    ("presets", JVal.jarr (d.presets.map jsonOfPreset)) :: jfieldsOfToml d.top)) =
    parsePluginToml d
  simp only [parsePluginJson, parsePluginToml, hname, hversion, hrules, hpresets,
    asStr_map, parseRulesJson, parsePresetsJson, optionMapList_map,
    optionMapList_congr _ _ _ parseRule_equiv,
    optionMapList_congr _ _ _ parsePreset_equiv]

end PBR
